import Mathlib

/-!
Shallow embedding of the TabKit tab store and verification of its
specification claims.

The repository holds two reducer variants of the tabs slice:

* namespace TK   — src/src/context/tabSlice.ts (lines 1-396), the primary
  slice: validated addTab with content truncation, reorderable-aware
  removeTab/switchTab, updateTab restricted to content/isDirty, and the
  persistTabsTransform write projection.
* namespace P5   — the service/tabSlice variant (src/unnamed/part_005):
  validateTabEntity-gated setActiveTab/removeTab/updateTab/moveTab, a
  while-loop switchTab, and no payload validation in addTab.

JS strings are modelled as List Char (content) or String (ids, titles);
entity records (id -> Tab) are association lists in key-insertion order,
matching JS object key order; the @reduxjs/toolkit entity adapter is
sorted by title (localeCompare modelled as lexicographic code-unit
comparison), so adapter insertions recompute ids as the title-sorted order
of the current entity values.
-/

namespace TabKit

/-- Lookup in an association list of entities, by key (JS entities[id]). -/
def getEntity {α : Type} : List (String × α) → String → Option α
  | [], _ => none
  | (k, v) :: rest, key => if k = key then some v else getEntity rest key

/-- The keys of an entity record, in insertion order (JS Object.keys). -/
def entityKeys {α : Type} (l : List (String × α)) : List String := l.map Prod.fst

/-- Lexicographic comparison of char sequences, the model of the
localeCompare-based sortComparer (JS compares code units). -/
def charListLe : List Char → List Char → Bool
  | [], _ => true
  | _ :: _, [] => false
  | c :: cs, d :: ds => if c < d then true else if d < c then false else charListLe cs ds

/-- Title comparison a.localeCompare(b) <= 0, modelled on the char lists. -/
def titleLe (a b : String) : Bool := charListLe a.data b.data

namespace TK

/-- TabConfig of the primary slice: every field optional. -/
structure TabConfig where
  closable : Option Bool := none
  reorderable : Option Bool := none
  persist : Option Bool := none
  maxTabs : Option Nat := none
  maxContentSize : Option Nat := none
deriving Repr, DecidableEq

/-- Tab record of the primary slice (id, title, content, isDirty, config?). -/
structure Tab where
  id : String
  title : String
  content : List Char
  isDirty : Bool
  config : Option TabConfig := none
deriving Repr, DecidableEq

/-- TabState: entity record, ordered ids, and the active tab id (or null). -/
structure TabState where
  entities : List (String × Tab)
  ids : List String
  activeTabId : Option String
deriving Repr, DecidableEq

/-- The defaultConfig constant of the primary slice. -/
def defaultConfig : TabConfig :=
  { closable := some true, reorderable := some true, persist := some false,
    maxTabs := some 10, maxContentSize := some 1000 }

/-- Initial state: no entities, no ids, no active tab. -/
def initialState : TabState := { entities := [], ids := [], activeTabId := none }

/-- AddTabPayload = Omit of Tab without id and isDirty. -/
structure AddTabPayload where
  title : String
  content : List Char
  config : Option TabConfig := none
deriving Repr, DecidableEq

/-- UpdateTabPayload = Partial Tab with a mandatory id. -/
structure UpdateTabPayload where
  id : String
  title : Option String := none
  content : Option (List Char) := none
  isDirty : Option Bool := none
  config : Option TabConfig := none
deriving Repr, DecidableEq

/-- JS spread merge of the payload config over defaultConfig:
field := payloadConfig.field ?? defaultConfig.field. -/
def mergeConfig (c : Option TabConfig) : TabConfig :=
  let o := c.getD {}
  { closable := o.closable <|> defaultConfig.closable,
    reorderable := o.reorderable <|> defaultConfig.reorderable,
    persist := o.persist <|> defaultConfig.persist,
    maxTabs := o.maxTabs <|> defaultConfig.maxTabs,
    maxContentSize := o.maxContentSize <|> defaultConfig.maxContentSize }

/-- Sort order used by the entity adapter sortComparer
(a, b) => a.title.localeCompare(b.title). -/
def tabTitleLe (a b : Tab) : Prop := titleLe a.title b.title = true

instance : DecidableRel tabTitleLe :=
  fun a b => inferInstanceAs (Decidable (titleLe a.title b.title = true))

/-- The ids maintained by the sorted entity adapter: entity values sorted by
title, projected to their ids. -/
def sortedIds (entities : List (String × Tab)) : List String :=
  (List.insertionSort tabTitleLe (entities.map Prod.snd)).map Tab.id

/-- tabsAdapter.addOne on the sorted adapter: no-op when the id already
exists, otherwise add the entity and recompute the sorted ids. -/
def addOne (s : TabState) (tab : Tab) : TabState :=
  if (getEntity s.entities tab.id).isSome then s
  else
    let entities := s.entities ++ [(tab.id, tab)]
    { s with entities := entities, ids := sortedIds entities }

/-- tabsAdapter.removeOne: delete the key from entities, then
state.ids = state.ids.filter(id => id in state.entities). -/
def removeOne (s : TabState) (tabId : String) : TabState :=
  let entities := s.entities.filter (fun p => p.1 ≠ tabId)
  { s with entities := entities,
           ids := s.ids.filter (fun i => (getEntity entities i).isSome) }

/-- Truthiness of tab.config?.reorderable for an optional entity lookup
(undefined entity, undefined config and undefined flag are all falsy). -/
def reorderableTruthy (t : Option Tab) : Bool :=
  match t with
  | some tab => (tab.config.bind TabConfig.reorderable).getD false
  | none => false

/-- Truthiness of tab.config?.closable for an optional entity lookup. -/
def closableTruthy (t : Option Tab) : Bool :=
  match t with
  | some tab => (tab.config.bind TabConfig.closable).getD false
  | none => false

/-- Truthiness of tab.config?.persist. -/
def persistTruthy (tab : Tab) : Bool :=
  (tab.config.bind TabConfig.persist).getD false

/-- The addTab reducer: capacity check against the effective maxTabs, title
validation, content truncation to the effective maxContentSize, config merge,
sorted insertion, and activation of the new tab. The generated id
(crypto random in the source) is passed in as newId. The runtime check that
content is a string cannot fire in the typed model. -/
def addTab (s : TabState) (payload : AddTabPayload) (newId : String) :
    Except String TabState :=
  let maxTabs := ((payload.config.bind TabConfig.maxTabs) <|> defaultConfig.maxTabs).getD 10
  if maxTabs ≤ s.ids.length then
    .error "Maximum number of tabs reached. Please close existing tabs before adding a new one."
  else
    let maxContentSize :=
      ((payload.config.bind TabConfig.maxContentSize) <|> defaultConfig.maxContentSize).getD 1000
    if payload.title = "" then
      .error "Invalid tab title. Title must be a non-empty string."
    else
      let newTab : Tab :=
        { id := newId, title := payload.title,
          content := if payload.content.length ≤ maxContentSize then payload.content
                     else payload.content.take maxContentSize,
          isDirty := !payload.content.isEmpty,
          config := some (mergeConfig payload.config) }
      let s1 := addOne s newTab
      .ok { s1 with activeTabId := some newTab.id }

/-- The setActiveTab reducer: activate only an existing tab whose
config.reorderable is truthy. -/
def setActiveTab (s : TabState) (tabId : String) : TabState :=
  if reorderableTruthy (getEntity s.entities tabId) then
    { s with activeTabId := some tabId }
  else s

/-- Forward scan of removeTab: first index at or after start (in the
pre-removal ids array) whose tab is reorderable in the post-removal entities. -/
def scanFwd (entities : List (String × Tab)) (ids : List String) (start : Nat) :
    Option Nat :=
  match (ids.drop start).findIdx? (fun i => reorderableTruthy (getEntity entities i)) with
  | some j => some (start + j)
  | none => none

/-- Backward scan of removeTab: first index at or below k (down to 0) whose
tab is reorderable. -/
def scanBwd (entities : List (String × Tab)) (ids : List String) : Nat → Option Nat
  | 0 => if reorderableTruthy (getEntity entities (ids.getD 0 "")) then some 0 else none
  | k + 1 =>
    if reorderableTruthy (getEntity entities (ids.getD (k + 1) "")) then some (k + 1)
    else scanBwd entities ids k

/-- The removeTab reducer. Only a tab with truthy config.closable is removed.
The local ids alias is the array captured before removeOne (the adapter
replaces state.ids with a fresh filtered array), so both scans run over the
pre-removal ids with post-removal entities, exactly as in the source; a
JS indexOf miss (-1) makes the forward scan start at 0 and skips the
backward scan. -/
def removeTab (s : TabState) (tabId : String) : TabState :=
  if closableTruthy (getEntity s.entities tabId) then
    let ids := s.ids
    let s1 := removeOne s tabId
    if s.activeTabId = some tabId then
      let removedTabIndex : Option Nat := ids.indexOf? tabId
      let fwdStart : Nat := match removedTabIndex with
        | some i => i + 1
        | none => 0
      let nextIndex : Option Nat :=
        match scanFwd s1.entities ids fwdStart with
        | some i => some i
        | none =>
          match removedTabIndex with
          | some k => if k = 0 then none else scanBwd s1.entities ids (k - 1)
          | none => none
      { s1 with activeTabId := nextIndex.map (fun i => ids.getD i "") }
    else s1
  else s

/-- Direction payload of switchTab. -/
inductive Direction
  | next
  | previous
deriving Repr, DecidableEq

/-- Candidate index probed at loop iteration i:
(currentIndex + increment * i + length) % length. The operand is positive for
every probed i, so Int emod coincides with the JS remainder. -/
def probeIdx (currentIndex : Nat) (inc : Int) (length : Nat) (i : Nat) : Nat :=
  (((currentIndex : Int) + inc * (i : Int) + (length : Int)) % (length : Int)).toNat

/-- The switchTab search loop: for i = 1 .. length-1 compute the candidate,
stop at the first reorderable one; newIndex carries the last computed
candidate when no candidate is eligible. The loop guard i < length is
compiled structurally into the remaining iteration count rem = length - i. -/
def switchGo (entities : List (String × Tab)) (ids : List String)
    (currentIndex : Nat) (inc : Int) (length : Nat) :
    Nat → Nat → Nat → Nat
  | 0, _, newIndex => newIndex
  | rem + 1, i, _newIndex =>
    let cand := probeIdx currentIndex inc length i
    if reorderableTruthy (getEntity entities (ids.getD cand "")) then cand
    else switchGo entities ids currentIndex inc length rem (i + 1) cand

/-- The switchTab reducer: locate the active tab (indexOf of activeTabId or
the empty string), run the bounded search loop from i = 1 (that is,
length - 1 remaining iterations), and update activeTabId only when the
resulting index differs from the current one. -/
def switchTab (s : TabState) (direction : Direction) : TabState :=
  match s.ids.indexOf? (s.activeTabId.getD "") with
  | none => s
  | some currentIndex =>
    let length := s.ids.length
    let inc : Int := if direction = .next then 1 else -1
    let newIndex := switchGo s.entities s.ids currentIndex inc length (length - 1) 1 currentIndex
    if newIndex ≠ currentIndex then { s with activeTabId := some (s.ids.getD newIndex "") }
    else s

/-- The closeAllTabs reducer: removeAll and a null active tab. -/
def closeAllTabs (_s : TabState) : TabState := initialState

/-- The updateTab reducer: when the id exists, recompute isDirty and the
truncated content (effective maxContentSize from the payload config, else the
stored config, else the default) and apply updateOne with exactly those two
changes; the sorted adapter recomputes ids. Supplied title, meta, isDirty and
config fields are never written. -/
def updateTab (s : TabState) (payload : UpdateTabPayload) : TabState :=
  match getEntity s.entities payload.id with
  | none => s
  | some tab =>
    let maxContentSize :=
      ((payload.config.bind TabConfig.maxContentSize)
        <|> (tab.config.bind TabConfig.maxContentSize)
        <|> defaultConfig.maxContentSize).getD 1000
    let isDirty : Bool := match payload.content with
      | some c =>
        if c.length ≤ maxContentSize then decide (c ≠ tab.content)
        else decide (tab.content.take maxContentSize ≠ c.take maxContentSize)
      | none => tab.isDirty
    let newContent : List Char := match payload.content with
      | some c => if c.length ≤ maxContentSize then c else c.take maxContentSize
      | none => tab.content
    let entities := s.entities.map (fun p =>
      if p.1 = payload.id then (p.1, { p.2 with content := newContent, isDirty := isDirty })
      else p)
    { s with entities := entities, ids := sortedIds entities }

/-- One pass of the persistTabsTransform write projection over ids: the
persisted ids (q) and the persisted entity record (r), in ids order. -/
def persistPass (entities : List (String × Tab)) :
    List String → List String × List (String × Tab)
  | [] => ([], [])
  | i :: rest =>
    let qr := persistPass entities rest
    match getEntity entities i with
    | some tab =>
      if persistTruthy tab then (i :: qr.1, (i, tab) :: qr.2) else qr
    | none => qr

/-- The inbound (write-path) persistTabsTransform: keep only persist-truthy
tabs, in ids order, and spread the rest of the state — including
activeTabId — unchanged into the snapshot. -/
def persistTabsTransformIn (s : TabState) : TabState :=
  let qr := persistPass s.entities s.ids
  { s with ids := qr.1, entities := qr.2 }

/-- The outbound (read-path) persistTabsTransform is the identity. -/
def persistTabsTransformOut (s : TabState) : TabState := s

/-- Store rehydration from a written snapshot: redux-persist applies the
outbound transform and autoMergeLevel1 replaces the tabs slice wholesale with
the result, so the reloaded slice is exactly the stored snapshot. -/
def reload (snapshot : TabState) : TabState := persistTabsTransformOut snapshot

end TK

namespace P5

/-- TabConfig of the service/tabSlice variant: closable?, reorderable?,
persist?. -/
structure TabConfig where
  closable : Option Bool := none
  reorderable : Option Bool := none
  persist : Option Bool := none
deriving Repr, DecidableEq

/-- Tab of the service/tabSlice variant: content, isDirty and config are
optional fields. -/
structure Tab where
  id : String
  title : String
  content : Option String := none
  isDirty : Option Bool := none
  config : Option TabConfig := none
deriving Repr, DecidableEq

/-- TabState of the service/tabSlice variant. -/
structure TabState where
  entities : List (String × Tab)
  ids : List String
  activeTabId : Option String
deriving Repr, DecidableEq

/-- Initial state from the adapter: empty entities and ids, null active id. -/
def initialState : TabState := { entities := [], ids := [], activeTabId := none }

/-- AddTab payload: Omit of Tab without the id. -/
structure AddTabPayload where
  title : String
  content : Option String := none
  isDirty : Option Bool := none
  config : Option TabConfig := none
deriving Repr, DecidableEq

/-- UpdateTab payload: Partial Tab plus a mandatory id. -/
structure UpdateTabPayload where
  id : String
  title : Option String := none
  content : Option String := none
  isDirty : Option Bool := none
  config : Option TabConfig := none
deriving Repr, DecidableEq

/-- Sort order of the sorted entity adapter (title localeCompare). -/
def tabTitleLe (a b : Tab) : Prop := titleLe a.title b.title = true

instance : DecidableRel tabTitleLe :=
  fun a b => inferInstanceAs (Decidable (titleLe a.title b.title = true))

/-- validateTabEntity: error when the id is absent, error when the tab's
config marks it closable === false or reorderable === false. -/
def validateTabEntity (s : TabState) (tabId : String) : Except String Unit :=
  match getEntity s.entities tabId with
  | none => .error ("Tab with ID " ++ tabId ++ " not found")
  | some tab =>
    if (tab.config.bind TabConfig.closable) = some false
        ∨ (tab.config.bind TabConfig.reorderable) = some false then
      .error ("Tab with ID " ++ tabId ++ " is not accessible")
    else .ok ()

/-- The addTab reducer: no validation; merge explicit defaults into the
config (persist ?? false, closable ?? true, reorderable ?? true), insert via
the sorted adapter (no-op on id collision) and activate the new id. The
nanoid-generated id is passed in as newId. -/
def addTab (s : TabState) (payload : AddTabPayload) (newId : String) : TabState :=
  let tab : Tab :=
    { id := newId, title := payload.title, content := payload.content,
      isDirty := payload.isDirty,
      config := some
        { persist := some ((payload.config.bind TabConfig.persist).getD false),
          closable := some ((payload.config.bind TabConfig.closable).getD true),
          reorderable := some ((payload.config.bind TabConfig.reorderable).getD true) } }
  let s1 :=
    if (getEntity s.entities newId).isSome then s
    else
      let entities := s.entities ++ [(newId, tab)]
      { s with entities := entities,
               ids := (List.insertionSort tabTitleLe (entities.map Prod.snd)).map Tab.id }
  { s1 with activeTabId := some newId }

/-- The setActiveTab reducer: validate, then activate. -/
def setActiveTab (s : TabState) (tabId : String) : Except String TabState :=
  match validateTabEntity s tabId with
  | .error e => .error e
  | .ok _ => .ok { s with activeTabId := some tabId }

/-- The removeTab reducer: validate, removeOne (delete the key and filter the
ids), then activate the first remaining id or null. -/
def removeTab (s : TabState) (tabId : String) : Except String TabState :=
  match validateTabEntity s tabId with
  | .error e => .error e
  | .ok _ =>
    let entities := s.entities.filter (fun p => p.1 ≠ tabId)
    let ids := s.ids.filter (fun i => (getEntity entities i).isSome)
    .ok { entities := entities, ids := ids, activeTabId := ids.head? }

/-- Loop guard of the part_005 switchTab while loop:
entities[ids[newIndex]].config?.reorderable === false keeps looping (a
missing entity would throw in JS; modelled as loop exit, unreachable in
well-formed states). -/
def stuckOnIndex (entities : List (String × Tab)) (ids : List String) (n : Nat) : Bool :=
  match getEntity entities (ids.getD n "") with
  | some tab => (tab.config.bind TabConfig.reorderable) = some false
  | none => false

/-- The while loop of the part_005 switchTab, stepping by the direction
increment modulo length, with explicit fuel: none models divergence of the
source loop, which has no bound of its own. -/
def switchSearch (entities : List (String × Tab)) (ids : List String)
    (inc : Int) (length : Nat) : Nat → Nat → Option Nat
  | 0, newIndex => if stuckOnIndex entities ids newIndex then none else some newIndex
  | fuel + 1, newIndex =>
    if stuckOnIndex entities ids newIndex then
      switchSearch entities ids inc length fuel
        ((((newIndex : Int) + inc + (length : Int)) % (length : Int)).toNat)
    else some newIndex

/-- The switchTab reducer with explicit fuel for its while loop: a no-op when
the active id is not in ids; otherwise start one step from the current index
and loop while the candidate is explicitly non-reorderable. -/
def switchTabFuel (fuel : Nat) (s : TabState) (next : Bool) : Option TabState :=
  match s.ids.indexOf? (s.activeTabId.getD "") with
  | none => some s
  | some currentIndex =>
    let direction : Int := if next then 1 else -1
    let length := s.ids.length
    let start := (((currentIndex : Int) + direction + (length : Int)) % (length : Int)).toNat
    match switchSearch s.entities s.ids direction length fuel start with
    | some newIndex => some { s with activeTabId := some (s.ids.getD newIndex "") }
    | none => none

/-- The switchTab operation as dispatched: fuel ids.length suffices to visit
every index of the cycle, so a none result coincides with true divergence of
the source loop. -/
def switchTab (s : TabState) (next : Bool) : Option TabState :=
  switchTabFuel s.ids.length s next

/-- The closeAllTabs reducer. -/
def closeAllTabs (_s : TabState) : TabState := initialState

/-- The updateTab reducer: validate inside produce, then Object.assign the
supplied fields (everything but the id) onto the stored tab; the config is
replaced wholesale, nothing is truncated and isDirty is not recomputed. -/
def updateTab (s : TabState) (payload : UpdateTabPayload) : Except String TabState :=
  match validateTabEntity s payload.id with
  | .error e => .error e
  | .ok _ =>
    let entities := s.entities.map (fun p =>
      if p.1 = payload.id then
        (p.1, { p.2 with
                  title := payload.title.getD p.2.title,
                  content := payload.content <|> p.2.content,
                  isDirty := payload.isDirty <|> p.2.isDirty,
                  config := payload.config <|> p.2.config })
      else p)
    .ok { s with entities := entities }

/-- memoizedMoveTab without the memoization (pure splice): remove the tab at
its current index and reinsert it at newIndex, with the JS splice clamping of
a negative or oversized start index against the shortened list. -/
def moveTabList (tabs : List Tab) (id : String) (newIndex : Int) : List Tab :=
  match tabs.findIdx? (fun t => t.id == id) with
  | none => tabs
  | some oldIndex =>
    match tabs[oldIndex]? with
    | none => tabs
    | some moved =>
      let rest := tabs.eraseIdx oldIndex
      let start : Nat :=
        if newIndex < 0 then (((rest.length : Int) + newIndex).toNat)
        else min newIndex.toNat rest.length
      rest.insertIdx start moved

/-- The moveTab reducer: validate, splice the tab to its new index in the
entity values, then setAll on the sorted adapter (which re-sorts everything
by title and rebuilds entities and ids from the result). -/
def moveTab (s : TabState) (tabId : String) (newIndex : Int) : Except String TabState :=
  match validateTabEntity s tabId with
  | .error e => .error e
  | .ok _ =>
    let movedTabs := moveTabList (s.entities.map Prod.snd) tabId newIndex
    let sortedTabs := List.insertionSort tabTitleLe movedTabs
    .ok { entities := sortedTabs.map (fun t => (t.id, t)),
          ids := sortedTabs.map Tab.id,
          activeTabId := s.activeTabId }

/-- One exposed operation of the part_005 slice, with generated ids made
explicit. -/
inductive Op
  | addTab (newId : String) (payload : AddTabPayload)
  | setActiveTab (tabId : String)
  | removeTab (tabId : String)
  | switchTab (next : Bool)
  | closeAllTabs
  | updateTab (payload : UpdateTabPayload)
  | moveTab (tabId : String) (newIndex : Int)
deriving Repr

/-- Outcome of dispatching a throwing reducer: on error the store keeps its
previous state (the exception propagates to the caller, the state is
untouched). -/
def settle (r : Except String TabState) (s : TabState) : TabState :=
  match r with
  | .ok s1 => s1
  | .error _ => s

/-- Dispatch one operation; none only for a diverging switchTab loop. -/
def applyOp (s : TabState) : Op → Option TabState
  | .addTab newId payload => some (addTab s payload newId)
  | .setActiveTab tabId => some (settle (setActiveTab s tabId) s)
  | .removeTab tabId => some (settle (removeTab s tabId) s)
  | .switchTab next => switchTab s next
  | .closeAllTabs => some (closeAllTabs s)
  | .updateTab payload => some (settle (updateTab s payload) s)
  | .moveTab tabId newIndex => some (settle (moveTab s tabId newIndex) s)

/-- Run a sequence of operations from a state. -/
def run (s : TabState) : List Op → Option TabState
  | [] => some s
  | op :: rest =>
    match applyOp s op with
    | some s1 => run s1 rest
    | none => none

end P5

/-! ### Spec-side readings of the effective limits used by the reducers -/

/-- Effective maxTabs of an add payload:
payload.config?.maxTabs ?? defaultConfig.maxTabs ?? 10. -/
def effAddMaxTabs (p : TK.AddTabPayload) : Nat :=
  ((p.config.bind TK.TabConfig.maxTabs) <|> TK.defaultConfig.maxTabs).getD 10

/-- Effective maxContentSize of an add payload:
payload.config?.maxContentSize ?? defaultConfig.maxContentSize ?? 1000. -/
def effAddMaxContentSize (p : TK.AddTabPayload) : Nat :=
  ((p.config.bind TK.TabConfig.maxContentSize) <|> TK.defaultConfig.maxContentSize).getD 1000

/-- Effective maxContentSize of an update: the payload config takes
precedence over the stored config, then the default. -/
def effUpdMaxContentSize (p : TK.UpdateTabPayload) (tab : TK.Tab) : Nat :=
  ((p.config.bind TK.TabConfig.maxContentSize)
    <|> (tab.config.bind TK.TabConfig.maxContentSize)
    <|> TK.defaultConfig.maxContentSize).getD 1000

/-! ### Concrete states used by counterexamples and witnesses -/

/-- A fully-explicit primary-slice config. -/
def mkConfig (closable reorderable persist : Bool) : TK.TabConfig :=
  { closable := some closable, reorderable := some reorderable, persist := some persist,
    maxTabs := some 10, maxContentSize := some 1000 }

/-- A primary-slice tab with empty content. -/
def mkTab (i t : String) (closable reorderable persist : Bool) : TK.Tab :=
  { id := i, title := t, content := [], isDirty := false,
    config := some (mkConfig closable reorderable persist) }

/-- Store with X (persist true) and Y (persist false), Y active. -/
def persistStateXY : TK.TabState :=
  { entities := [("x", mkTab "x" "X" true true true), ("y", mkTab "y" "Y" true true false)],
    ids := ["x", "y"], activeTabId := some "y" }

/-- Store with eligible A (active) and non-reorderable B. -/
def switchCexState : TK.TabState :=
  { entities := [("a", mkTab "a" "A" true true false), ("b", mkTab "b" "B" true false false)],
    ids := ["a", "b"], activeTabId := some "a" }

/-- Store with three eligible tabs A, B, C and A active. -/
def switchCycleState : TK.TabState :=
  { entities := [("a", mkTab "a" "A" true true false), ("b", mkTab "b" "B" true true false),
                 ("c", mkTab "c" "C" true true false)],
    ids := ["a", "b", "c"], activeTabId := some "a" }

/-- Store with a single non-closable tab. -/
def nonClosableState : TK.TabState :=
  { entities := [("a", mkTab "a" "A" false true false)], ids := ["a"], activeTabId := some "a" }

/-- Store with A, B, C where only B is active and removable scans apply:
A and C non-reorderable, B active. -/
def removeScanState : TK.TabState :=
  { entities := [("a", mkTab "a" "A" true false false), ("b", mkTab "b" "B" true true false),
                 ("c", mkTab "c" "C" true false false)],
    ids := ["a", "b", "c"], activeTabId := some "b" }

/-- Store with two closable tabs, A active, for the inactive-removal frame. -/
def twoTabState : TK.TabState :=
  { entities := [("a", mkTab "a" "A" true true false), ("b", mkTab "b" "B" true true false)],
    ids := ["a", "b"], activeTabId := some "a" }

/-- Store with one tab whose content is abcde. -/
def updateCexState : TK.TabState :=
  { entities := [("a", { id := "a", title := "A", content := ['a', 'b', 'c', 'd', 'e'],
                         isDirty := false, config := some (mkConfig true true false) })],
    ids := ["a"], activeTabId := some "a" }

/-- Update payload supplying a new title and nothing else. -/
def updateTitlePayload : TK.UpdateTabPayload := { id := "a", title := some "NEW" }

/-- Update payload supplying replacement content xy. -/
def updateContentPayload : TK.UpdateTabPayload := { id := "a", content := some ['x', 'y'] }

/-- Add payload whose content (5 chars) exceeds its configured
maxContentSize of 3. -/
def oversizePayload : TK.AddTabPayload :=
  { title := "T", content := ['h', 'e', 'l', 'l', 'o'],
    config := some { maxContentSize := some 3 } }

/-- Part_005 store with a single explicitly non-reorderable active tab: the
input on which the switchTab while loop never terminates. -/
def stuckState : P5.TabState :=
  { entities := [("a", { id := "a", title := "A",
                         config := some { reorderable := some false } })],
    ids := ["a"], activeTabId := some "a" }

/-- Part_005 store with one non-closable tab. -/
def p5NonClosableState : P5.TabState :=
  { entities := [("a", { id := "a", title := "A",
                         config := some { closable := some false } })],
    ids := ["a"], activeTabId := some "a" }

/-- Part_005 store with three default-config tabs. -/
def p5MoveState : P5.TabState :=
  { entities := [("a", { id := "a", title := "A" }), ("b", { id := "b", title := "B" }),
                 ("c", { id := "c", title := "C" })],
    ids := ["a", "b", "c"], activeTabId := some "a" }

/-- The part_005 data-model invariant, strengthened for induction: entity
keys are unique, ids is a permutation of the keys, every entity record
carries its own key as id, and the active id (when set) resolves. -/
def WellFormedP5 (s : P5.TabState) : Prop :=
  (entityKeys s.entities).Nodup ∧
  s.ids.Perm (entityKeys s.entities) ∧
  (∀ p ∈ s.entities, p.2.id = p.1) ∧
  (∀ a, s.activeTabId = some a → (getEntity s.entities a).isSome)

/-- A sample operation sequence exercising all seven exposed operations. -/
def sampleOps : List P5.Op :=
  [P5.Op.addTab "i1" { title := "B" }, P5.Op.addTab "i2" { title := "A" },
   P5.Op.setActiveTab "i1", P5.Op.switchTab true, P5.Op.moveTab "i2" 1,
   P5.Op.updateTab { id := "i1", title := some "C" }, P5.Op.removeTab "i1",
   P5.Op.closeAllTabs]

/-! ### Generic lemmas about entity records and list searches -/

theorem getEntity_isSome_iff_mem {α : Type} (l : List (String × α)) (k : String) :
    (getEntity l k).isSome ↔ k ∈ entityKeys l := by
  induction l with
  | nil => simp [getEntity, entityKeys]
  | cons p rest ih =>
    obtain ⟨a, v⟩ := p
    rw [entityKeys, List.map_cons, List.mem_cons, getEntity]
    by_cases h : a = k
    · simp [h]
    · rw [if_neg h, ih, entityKeys]
      constructor
      · exact Or.inr
      · rintro (he | hm)
        · exact absurd he.symm h
        · exact hm

theorem getEntity_eq_none_iff {α : Type} (l : List (String × α)) (k : String) :
    getEntity l k = none ↔ k ∉ entityKeys l := by
  rw [← getEntity_isSome_iff_mem]
  cases getEntity l k <;> simp

theorem getEntity_append {α : Type} (l1 l2 : List (String × α)) (k : String) :
    getEntity (l1 ++ l2) k = ((getEntity l1 k).orElse (fun _ => getEntity l2 k)) := by
  induction l1 with
  | nil => simp [getEntity]
  | cons p rest ih =>
    obtain ⟨a, v⟩ := p
    rw [List.cons_append, getEntity, getEntity]
    by_cases h : a = k
    · rw [if_pos h, if_pos h]
      rfl
    · rw [if_neg h, if_neg h, ih]

theorem getEntity_filter_ne_self {α : Type} (l : List (String × α)) (a : String) :
    getEntity (l.filter (fun p => p.1 ≠ a)) a = none := by
  induction l with
  | nil => rfl
  | cons p rest ih =>
    obtain ⟨k, v⟩ := p
    rw [List.filter_cons]
    by_cases h : k = a
    · rw [if_neg (by simp [h])]
      exact ih
    · rw [if_pos (by simp [h]), getEntity, if_neg h]
      exact ih

theorem getEntity_filter_ne {α : Type} (l : List (String × α)) (a k : String) (h : k ≠ a) :
    getEntity (l.filter (fun p => p.1 ≠ a)) k = getEntity l k := by
  induction l with
  | nil => rfl
  | cons p rest ih =>
    obtain ⟨b, v⟩ := p
    rw [List.filter_cons]
    by_cases hb : b = a
    · rw [if_neg (by simp [hb]), getEntity, if_neg (by rw [hb]; exact fun he => h he.symm)]
      exact ih
    · rw [if_pos (by simp [hb]), getEntity, getEntity]
      by_cases hk : b = k
      · rw [if_pos hk, if_pos hk]
      · rw [if_neg hk, if_neg hk]
        exact ih

theorem entityKeys_filter_ne {α : Type} (l : List (String × α)) (a : String) :
    entityKeys (l.filter (fun p => p.1 ≠ a)) = (entityKeys l).filter (fun x => x ≠ a) := by
  induction l with
  | nil => rfl
  | cons p rest ih =>
    obtain ⟨k, v⟩ := p
    rw [List.filter_cons]
    have hkeys : entityKeys ((k, v) :: rest) = k :: entityKeys rest := rfl
    rw [hkeys, List.filter_cons]
    by_cases h : k = a
    · rw [if_neg (by simp [h]), if_neg (by simp [h])]
      exact ih
    · rw [if_pos (by simp [h]), if_pos (by simp [h])]
      have : entityKeys ((k, v) :: rest.filter (fun p => p.1 ≠ a)) =
          k :: entityKeys (rest.filter (fun p => p.1 ≠ a)) := rfl
      rw [this, ih]

theorem getEntity_mapAt {α : Type} (l : List (String × α)) (key : String) (g : α → α) :
    getEntity (l.map (fun p => if p.1 = key then (p.1, g p.2) else p)) key =
      (getEntity l key).map g := by
  induction l with
  | nil => rfl
  | cons p rest ih =>
    obtain ⟨k, v⟩ := p
    rw [List.map_cons]
    show getEntity ((if k = key then (k, g v) else (k, v)) :: _) key = _
    by_cases h : k = key
    · rw [if_pos h, getEntity, if_pos h, getEntity, if_pos h]
      rfl
    · rw [if_neg h, getEntity, if_neg h, getEntity, if_neg h, ih]

theorem getEntity_mapAt_ne {α : Type} (l : List (String × α)) (key i : String) (g : α → α)
    (h : i ≠ key) :
    getEntity (l.map (fun p => if p.1 = key then (p.1, g p.2) else p)) i = getEntity l i := by
  induction l with
  | nil => rfl
  | cons p rest ih =>
    obtain ⟨k, v⟩ := p
    rw [List.map_cons]
    show getEntity ((if k = key then (k, g v) else (k, v)) :: _) i = _
    by_cases hk : k = key
    · rw [if_pos hk, getEntity, getEntity,
        if_neg (by rw [hk]; exact fun he => h he.symm),
        if_neg (by rw [hk]; exact fun he => h he.symm)]
      exact ih
    · rw [if_neg hk, getEntity, getEntity]
      by_cases hi : k = i
      · rw [if_pos hi, if_pos hi]
      · rw [if_neg hi, if_neg hi]
        exact ih

theorem entityKeys_mapAt {α : Type} (l : List (String × α)) (key : String) (g : α → α) :
    entityKeys (l.map (fun p => if p.1 = key then (p.1, g p.2) else p)) = entityKeys l := by
  induction l with
  | nil => rfl
  | cons p rest ih =>
    obtain ⟨k, v⟩ := p
    rw [List.map_cons]
    show entityKeys ((if k = key then (k, g v) else (k, v)) :: _) = _
    by_cases h : k = key
    · rw [if_pos h]
      show k :: entityKeys (rest.map _) = k :: entityKeys rest
      rw [ih]
    · rw [if_neg h]
      show k :: entityKeys (rest.map _) = k :: entityKeys rest
      rw [ih]

theorem getEntity_eq_some_iff_mem {α : Type} (l : List (String × α)) (k : String) (v : α)
    (hnd : (entityKeys l).Nodup) : getEntity l k = some v ↔ (k, v) ∈ l := by
  induction l with
  | nil => simp [getEntity]
  | cons p rest ih =>
    obtain ⟨a, w⟩ := p
    simp only [entityKeys, List.map_cons, List.nodup_cons] at hnd
    rw [getEntity, List.mem_cons]
    by_cases h : a = k
    · subst h
      rw [if_pos rfl]
      constructor
      · intro hv
        left
        rw [Option.some_inj] at hv
        rw [hv]
      · rintro (hv | hv)
        · rw [Option.some_inj]
          exact (congrArg Prod.snd hv).symm
        · exact absurd (List.mem_map_of_mem Prod.fst hv) (by simpa using hnd.1)
    · rw [if_neg h, ih hnd.2]
      constructor
      · intro hv; right; exact hv
      · rintro (hv | hv)
        · exact absurd (congrArg Prod.fst hv).symm h
        · exact hv

theorem getEntity_perm {α : Type} {l1 l2 : List (String × α)} (h : l1.Perm l2)
    (hnd : (entityKeys l1).Nodup) (k : String) : getEntity l1 k = getEntity l2 k := by
  have hnd2 : (entityKeys l2).Nodup := (h.map Prod.fst).nodup hnd
  cases hv : getEntity l1 k with
  | some v =>
    have := (getEntity_eq_some_iff_mem l1 k v hnd).mp hv
    exact ((getEntity_eq_some_iff_mem l2 k v hnd2).mpr (h.mem_iff.mp this)).symm
  | none =>
    have : k ∉ entityKeys l2 := by
      intro hm
      exact (getEntity_eq_none_iff l1 k).mp hv (((h.map Prod.fst).mem_iff).mpr hm)
    exact ((getEntity_eq_none_iff l2 k).mpr this).symm

theorem find?_congr_mem {α : Type} {p q : α → Bool} {l : List α}
    (h : ∀ x ∈ l, p x = q x) : l.find? p = l.find? q := by
  induction l with
  | nil => rfl
  | cons a rest ih =>
    have ha := h a (List.mem_cons_self a rest)
    by_cases hp : p a
    · rw [List.find?_cons_of_pos _ hp, List.find?_cons_of_pos _ (ha ▸ hp)]
    · rw [List.find?_cons_of_neg _ hp, List.find?_cons_of_neg _ (ha ▸ hp),
        ih (fun x hx => h x (List.mem_cons_of_mem a hx))]

theorem findIdx?_some_spec {α : Type} {p : α → Bool} {l : List α} {j : Nat}
    (h : l.findIdx? p = some j) :
    j < l.length ∧ ∀ d : α, l.find? p = some (l.getD j d) := by
  induction l generalizing j with
  | nil => simp [List.findIdx?_nil] at h
  | cons a rest ih =>
    rw [List.findIdx?_cons] at h
    by_cases hp : p a
    · rw [if_pos hp] at h
      cases h
      refine ⟨Nat.succ_pos _, fun d => ?_⟩
      rw [List.find?_cons_of_pos _ hp]
      rfl
    · rw [if_neg hp, List.findIdx?_succ] at h
      cases hj : rest.findIdx? p with
      | none => rw [hj] at h; simp at h
      | some j0 =>
        rw [hj] at h
        simp only [Option.map_some', Option.some_inj] at h
        obtain ⟨hlt, hfind⟩ := ih hj
        cases h
        refine ⟨Nat.succ_lt_succ hlt, fun d => ?_⟩
        rw [List.find?_cons_of_neg _ hp, hfind d]
        rfl

theorem findIdx?_none_spec {α : Type} {p : α → Bool} {l : List α}
    (h : l.findIdx? p = none) : l.find? p = none := by
  induction l with
  | nil => rfl
  | cons a rest ih =>
    rw [List.findIdx?_cons] at h
    by_cases hp : p a
    · rw [if_pos hp] at h; simp at h
    · rw [if_neg hp, List.findIdx?_succ] at h
      rw [List.find?_cons_of_neg _ hp]
      exact ih (by cases hj : rest.findIdx? p with
        | none => rfl
        | some j0 => rw [hj] at h; simp at h)

theorem indexOf?_some_spec {l : List String} {a : String} {i : Nat}
    (h : l.indexOf? a = some i) : i < l.length ∧ l.getD i "" = a := by
  induction l generalizing i with
  | nil => simp [List.indexOf?_nil] at h
  | cons x rest ih =>
    rw [List.indexOf?_cons] at h
    by_cases hx : x = a
    · rw [if_pos (by simpa using hx)] at h
      cases h
      exact ⟨Nat.succ_pos _, hx⟩
    · rw [if_neg (by simpa using hx)] at h
      cases hj : rest.indexOf? a with
      | none => rw [hj] at h; simp at h
      | some j0 =>
        rw [hj] at h
        simp only [Option.map_some', Option.some_inj] at h
        obtain ⟨hlt, hget⟩ := ih hj
        cases h
        exact ⟨Nat.succ_lt_succ hlt, hget⟩

theorem indexOf?_append_first {l1 l2 : List String} {a : String} (h : a ∉ l1) :
    (l1 ++ a :: l2).indexOf? a = some l1.length := by
  induction l1 with
  | nil => simp [List.indexOf?_cons]
  | cons x rest ih =>
    have hx : x ≠ a := fun he => h (he ▸ List.mem_cons_self x rest)
    rw [List.cons_append, List.indexOf?_cons, if_neg (by simpa using hx),
      ih (fun hm => h (List.mem_cons_of_mem x hm))]
    rfl

theorem insertIdx_perm {α : Type} (a : α) :
    ∀ (n : Nat) (l : List α), n ≤ l.length → (l.insertIdx n a).Perm (a :: l)
  | 0, l, _ => by simp [List.insertIdx]
  | n + 1, [], h => by simp at h
  | n + 1, x :: xs, h => by
    have := insertIdx_perm a n xs (Nat.le_of_succ_le_succ h)
    have heq : ((x :: xs).insertIdx (n + 1) a) = x :: xs.insertIdx n a := by
      simp [List.insertIdx]
    rw [heq]
    exact List.Perm.trans (this.cons x) (List.Perm.swap a x xs)

theorem eraseIdx_cons_perm {α : Type} :
    ∀ (l : List α) (i : Nat) (x : α), l[i]? = some x → (x :: l.eraseIdx i).Perm l
  | [], i, x, h => by simp at h
  | y :: ys, 0, x, h => by
    simp only [List.getElem?_cons_zero, Option.some_inj] at h
    subst h
    simp [List.eraseIdx]
  | y :: ys, i + 1, x, h => by
    simp only [List.getElem?_cons_succ] at h
    have := eraseIdx_cons_perm ys i x h
    have heq : (x :: (y :: ys).eraseIdx (i + 1)) = x :: y :: ys.eraseIdx i := by
      simp [List.eraseIdx]
    rw [heq]
    exact List.Perm.trans (List.Perm.swap y x _) (this.cons y)

/-! ### Persistence projection (claim C1) -/

theorem persistPass_fst (entities : List (String × TK.Tab)) (ids : List String) :
    (TK.persistPass entities ids).1 = ids.filter (fun i =>
      match getEntity entities i with
      | some tab => TK.persistTruthy tab
      | none => false) := by
  induction ids with
  | nil => rfl
  | cons i rest ih =>
    rw [TK.persistPass, List.filter_cons]
    cases hi : getEntity entities i with
    | none => simpa [hi] using ih
    | some tab =>
      by_cases hp : TK.persistTruthy tab
      · simp only [hi, hp, if_pos rfl]
        rw [if_pos (by simp [hi, hp])]
        simpa using ih
      · simp only [hi]
        rw [if_neg (by simp [hp]), if_neg (by simp [hi, hp])]
        exact ih

theorem persistPass_snd (entities : List (String × TK.Tab)) (ids : List String) (key : String) :
    getEntity (TK.persistPass entities ids).2 key =
      match getEntity entities key with
      | some tab => if key ∈ ids ∧ TK.persistTruthy tab then some tab else none
      | none => none := by
  induction ids with
  | nil => cases hk : getEntity entities key <;> simp [TK.persistPass, getEntity]
  | cons i rest ih =>
    rw [TK.persistPass]
    by_cases hik : i = key
    · subst hik
      cases hi : getEntity entities i with
      | none => simp only [hi]; simpa [hi] using ih
      | some tab =>
        by_cases hp : TK.persistTruthy tab
        · simp only [hi, hp, if_pos rfl, getEntity]
          simp [List.mem_cons, hp]
        · simp only [hi]
          rw [if_neg (by simp [hp])]
          rw [ih, hi]
          simp [hp]
    · cases hi : getEntity entities i with
      | none =>
        simp only [hi]
        rw [ih]
        cases hk : getEntity entities key with
        | none => rfl
        | some tab =>
          have hki : ¬key = i := fun h => hik h.symm
          simp [List.mem_cons, hki]
      | some tab =>
        by_cases hp : TK.persistTruthy tab
        · simp only [hi, hp, if_pos rfl, getEntity]
          rw [if_neg hik, ih]
          cases hk : getEntity entities key with
          | none => rfl
          | some tab2 =>
            have hki : ¬key = i := fun h => hik h.symm
            simp [List.mem_cons, hki]
        · simp only [hi]
          rw [if_neg (by simp [hp]), ih]
          cases hk : getEntity entities key with
          | none => rfl
          | some tab2 =>
            have hki : ¬key = i := fun h => hik h.symm
            simp [List.mem_cons, hki]

/-- C1 counterexample: with X persist-true, Y persist-false and Y active, the
write projection keeps only X (in order) but carries activeTabId = y through
write and reload, so the reloaded store does not have a null activeTabId and
the snapshot does carry an active-tab selection. -/
theorem persist_roundtrip_keeps_active_cex :
    (TK.reload (TK.persistTabsTransformIn persistStateXY)).ids = ["x"] ∧
    (getEntity (TK.reload (TK.persistTabsTransformIn persistStateXY)).entities "y" = none) ∧
    (TK.reload (TK.persistTabsTransformIn persistStateXY)).activeTabId = some "y" := by
  refine ⟨by decide, by decide, by decide⟩

/-- C1 amended: the write projection followed by reload yields exactly the
persist-flagged tabs, in the same relative order as the original ids, while
activeTabId is carried over unchanged from the written state (never reset to
null by the transform pair). -/
theorem persist_roundtrip_amended (s : TK.TabState) :
    (TK.reload (TK.persistTabsTransformIn s)).ids = s.ids.filter (fun i =>
        match getEntity s.entities i with
        | some tab => TK.persistTruthy tab
        | none => false) ∧
    (∀ key, getEntity (TK.reload (TK.persistTabsTransformIn s)).entities key =
        match getEntity s.entities key with
        | some tab => if key ∈ s.ids ∧ TK.persistTruthy tab then some tab else none
        | none => none) ∧
    (TK.reload (TK.persistTabsTransformIn s)).activeTabId = s.activeTabId := by
  refine ⟨persistPass_fst s.entities s.ids, fun key => persistPass_snd s.entities s.ids key, rfl⟩

/-! ### addTab content policy (claim C5) -/

/-- C5: the primary addTab applies the truncation policy to every oversized
add that passes the capacity and title checks: the stored content is the
payload content truncated to exactly the effective maxContentSize characters,
and no content-size error is raised. -/
theorem addTab_truncates_oversized_content (s : TK.TabState) (pl : TK.AddTabPayload)
    (newId : String) (hcap : s.ids.length < effAddMaxTabs pl) (htitle : pl.title ≠ "")
    (hbig : effAddMaxContentSize pl < pl.content.length)
    (hfresh : getEntity s.entities newId = none) :
    ∃ s1, TK.addTab s pl newId = Except.ok s1 ∧
      getEntity s1.entities newId = some
        { id := newId, title := pl.title,
          content := pl.content.take (effAddMaxContentSize pl), isDirty := true,
          config := some (TK.mergeConfig pl.config) } ∧
      (pl.content.take (effAddMaxContentSize pl)).length = effAddMaxContentSize pl := by
  have hne : ¬(((pl.config.bind TK.TabConfig.maxTabs) <|> TK.defaultConfig.maxTabs).getD 10
      ≤ s.ids.length) := by
    simp only [effAddMaxTabs] at hcap
    omega
  have hmcs : ¬(pl.content.length ≤
      ((pl.config.bind TK.TabConfig.maxContentSize) <|> TK.defaultConfig.maxContentSize).getD 1000) := by
    simp only [effAddMaxContentSize] at hbig
    omega
  have hdirty : (!pl.content.isEmpty) = true := by
    cases hc : pl.content with
    | nil => rw [hc] at hbig; simp at hbig
    | cons a rest => rfl
  simp only [TK.addTab, TK.addOne, if_neg hne, if_neg htitle, if_neg hmcs, hfresh,
    Option.isSome_none, Bool.false_eq_true, if_false]
  refine ⟨_, rfl, ?_, ?_⟩
  · rw [getEntity_append, hfresh]
    simp [Option.orElse, getEntity, effAddMaxContentSize, hdirty]
  · rw [List.length_take]
    exact Nat.min_eq_left (Nat.le_of_lt hbig)

/-- C5 witness: adding the 5-character content hello under maxContentSize 3
stores exactly hel. -/
theorem addTab_truncates_oversized_content_witness :
    ∃ s1, TK.addTab TK.initialState oversizePayload "id1" = Except.ok s1 ∧
      getEntity s1.entities "id1" = some
        { id := "id1", title := oversizePayload.title,
          content := oversizePayload.content.take (effAddMaxContentSize oversizePayload),
          isDirty := true, config := some (TK.mergeConfig oversizePayload.config) } ∧
      (oversizePayload.content.take (effAddMaxContentSize oversizePayload)).length
        = effAddMaxContentSize oversizePayload :=
  addTab_truncates_oversized_content TK.initialState oversizePayload "id1"
    (by decide) (by decide) (by decide) (by decide)

/-! ### removeTab on a non-closable tab (claim C7) -/

/-- C7 counterexample: in the primary slice, removeTab on a non-closable tab
returns the state unchanged as an ordinary (non-throwing) result — the
reducer has no failure path at all — so the claimed NotClosable failure does
not occur. -/
theorem removeTab_nonclosable_silent_cex :
    TK.removeTab nonClosableState "a" = nonClosableState ∧
    (getEntity nonClosableState.entities "a").map
      (fun t => t.config.bind TK.TabConfig.closable) = some (some false) := by
  refine ⟨by decide, by decide⟩

/-- C7 amended: removeTab on a non-closable tab always leaves the store
byte-for-byte unchanged; the primary slice raises no error (the truthiness
guard silently skips the removal), while the service variant rejects the
call with the not-accessible error before touching the state. -/
theorem removeTab_nonclosable_amended :
    (∀ (s : TK.TabState) (tabId : String) (tab : TK.Tab),
      getEntity s.entities tabId = some tab →
      tab.config.bind TK.TabConfig.closable = some false →
      TK.removeTab s tabId = s) ∧
    (∀ (s : P5.TabState) (tabId : String) (tab : P5.Tab),
      getEntity s.entities tabId = some tab →
      tab.config.bind P5.TabConfig.closable = some false →
      P5.removeTab s tabId = Except.error ("Tab with ID " ++ tabId ++ " is not accessible")) := by
  constructor
  · intro s tabId tab hlk hncl
    rw [TK.removeTab]
    rw [if_neg (by simp [TK.closableTruthy, hlk, hncl])]
  · intro s tabId tab hlk hncl
    simp only [P5.removeTab, P5.validateTabEntity, hlk]
    rw [if_pos (Or.inl hncl)]

/-- C7 witness: concrete non-closable tabs in both variants. -/
theorem removeTab_nonclosable_amended_witness :
    TK.removeTab nonClosableState "a" = nonClosableState ∧
    P5.removeTab p5NonClosableState "a" =
      Except.error ("Tab with ID " ++ "a" ++ " is not accessible") :=
  ⟨removeTab_nonclosable_amended.1 nonClosableState "a" (mkTab "a" "A" false true false)
      (by decide) (by decide),
   removeTab_nonclosable_amended.2 p5NonClosableState "a"
      { id := "a", title := "A", config := some { closable := some false } }
      (by decide) (by decide)⟩

/-! ### updateTab field handling (claim C6) -/

/-- C6 counterexample: an update that supplies a new title leaves the stored
title unchanged — the primary updateTab writes only content and isDirty. -/
theorem updateTab_ignores_title_cex :
    updateTitlePayload.title = some "NEW" ∧
    (getEntity (TK.updateTab updateCexState updateTitlePayload).entities "a").map TK.Tab.title
      = some "A" := by
  refine ⟨rfl, by decide⟩

/-- C6 amended: for an existing id, updateTab writes exactly two fields of
the stored tab: content becomes the supplied content truncated to the
effective maxContentSize (the update config taking precedence over the
stored one), and isDirty is recomputed — by raw comparison when the new
content fits, by truncated comparison otherwise; every other stored field
(title, config, id) is untouched, other tabs are untouched, and the active
id is untouched. -/
theorem updateTab_content_isDirty_amended (s : TK.TabState) (pl : TK.UpdateTabPayload)
    (tab : TK.Tab) (c : List Char)
    (hlk : getEntity s.entities pl.id = some tab) (hc : pl.content = some c) :
    getEntity (TK.updateTab s pl).entities pl.id = some { tab with
        content := if c.length ≤ effUpdMaxContentSize pl tab then c
                   else c.take (effUpdMaxContentSize pl tab),
        isDirty := if c.length ≤ effUpdMaxContentSize pl tab then decide (c ≠ tab.content)
                   else decide (tab.content.take (effUpdMaxContentSize pl tab)
                     ≠ c.take (effUpdMaxContentSize pl tab)) } ∧
    (∀ i, i ≠ pl.id → getEntity (TK.updateTab s pl).entities i = getEntity s.entities i) ∧
    (TK.updateTab s pl).activeTabId = s.activeTabId := by
  simp only [TK.updateTab, hlk, hc]
  refine ⟨?_, fun i hi => ?_, trivial⟩
  · exact (getEntity_mapAt s.entities pl.id (fun t =>
      { t with
        content := if c.length ≤ effUpdMaxContentSize pl tab then c
                   else c.take (effUpdMaxContentSize pl tab),
        isDirty := if c.length ≤ effUpdMaxContentSize pl tab then decide (c ≠ tab.content)
                   else decide (tab.content.take (effUpdMaxContentSize pl tab)
                     ≠ c.take (effUpdMaxContentSize pl tab)) })).trans
      (by rw [hlk]; rfl)
  · exact getEntity_mapAt_ne s.entities pl.id i (fun t =>
      { t with
        content := if c.length ≤ effUpdMaxContentSize pl tab then c
                   else c.take (effUpdMaxContentSize pl tab),
        isDirty := if c.length ≤ effUpdMaxContentSize pl tab then decide (c ≠ tab.content)
                   else decide (tab.content.take (effUpdMaxContentSize pl tab)
                     ≠ c.take (effUpdMaxContentSize pl tab)) }) hi

/-- C6 witness: updating content from abcde to xy (within the default 1000
limit) stores xy with isDirty true and leaves the title and config alone. -/
theorem updateTab_content_isDirty_amended_witness :
    getEntity (TK.updateTab updateCexState updateContentPayload).entities
        updateContentPayload.id = some
      { (mkTab "a" "A" true true false) with
          content := if (['x', 'y'] : List Char).length ≤
              effUpdMaxContentSize updateContentPayload
                { (mkTab "a" "A" true true false) with content := ['a', 'b', 'c', 'd', 'e'] }
            then ['x', 'y']
            else List.take (effUpdMaxContentSize updateContentPayload
                { (mkTab "a" "A" true true false) with content := ['a', 'b', 'c', 'd', 'e'] })
              ['x', 'y'],
          isDirty := true } := by
  have h := updateTab_content_isDirty_amended updateCexState updateContentPayload
    { (mkTab "a" "A" true true false) with content := ['a', 'b', 'c', 'd', 'e'] }
    ['x', 'y'] (by decide) rfl
  refine h.1.trans ?_
  decide

/-! ### part_005 switchTab divergence (claim C9) -/

/-- C9: on the reachable part_005 state holding a single tab whose
reorderable flag is explicitly false (and active), the switchTab while loop
never finds an exit — for every fuel bound the search is still running —
so the operation does not terminate, contradicting the bounded-computation
claim; the primary slice uses a for loop bounded by ids.length instead. -/
theorem switchTab_part5_loop_divergence (fuel : Nat) :
    P5.switchTabFuel fuel stuckState true = none := by
  have hstuck : P5.stuckOnIndex stuckState.entities stuckState.ids 0 = true := by decide
  have hsearch : ∀ (inc : Int) (f : Nat),
      P5.switchSearch stuckState.entities stuckState.ids inc 1 f 0 = none := by
    intro inc f
    induction f with
    | zero => simp [P5.switchSearch, hstuck]
    | succ n ih =>
      rw [P5.switchSearch, if_pos hstuck]
      rw [Nat.cast_one, Int.emod_one, Int.toNat_zero]
      exact ih
  have hidx : stuckState.ids.indexOf? (stuckState.activeTabId.getD "") = some 0 := by decide
  have hlen : stuckState.ids.length = 1 := rfl
  rw [P5.switchTabFuel, hidx, hlen]
  simp only [Nat.cast_one, Int.emod_one, Int.toNat_zero, eq_self_iff_true, if_true]
  rw [hsearch _ fuel]

/-! ### switchTab navigation (claim C3) -/

theorem range'_map_getLastD {α : Type} (f : Nat → α) :
    ∀ (n s : Nat) (d : α), ((List.range' s (n + 1)).map f).getLastD d = f (s + n)
  | 0, s, d => by simp
  | n + 1, s, d => by
    rw [List.range'_succ, List.map_cons, List.getLastD_cons, range'_map_getLastD f n (s + 1) (f s)]
    congr 1
    omega

theorem switchGo_spec (entities : List (String × TK.Tab)) (ids : List String)
    (ci : Nat) (inc : Int) (len : Nat) :
    ∀ (rem i ni : Nat), TK.switchGo entities ids ci inc len rem i ni =
      (((List.range' i rem).map (TK.probeIdx ci inc len)).find?
          (fun n => TK.reorderableTruthy (getEntity entities (ids.getD n "")))).getD
        (((List.range' i rem).map (TK.probeIdx ci inc len)).getLastD ni) := by
  intro rem
  induction rem with
  | zero =>
    intro i ni
    simp [TK.switchGo]
  | succ n ih =>
    intro i ni
    rw [TK.switchGo, List.range'_succ, List.map_cons]
    by_cases he : TK.reorderableTruthy
        (getEntity entities (ids.getD (TK.probeIdx ci inc len i) "")) = true
    · rw [if_pos he,
        @List.find?_cons_of_pos Nat (fun n => TK.reorderableTruthy (getEntity entities
          (ids.getD n ""))) (TK.probeIdx ci inc len i) _ he, Option.getD_some]
    · rw [if_neg he,
        @List.find?_cons_of_neg Nat (fun n => TK.reorderableTruthy (getEntity entities
          (ids.getD n ""))) (TK.probeIdx ci inc len i) _ he, List.getLastD_cons,
        ih (i + 1) (TK.probeIdx ci inc len i)]

theorem probeIdx_ne (ci : Nat) (inc : Int) (len i : Nat) (hinc : inc = 1 ∨ inc = -1)
    (hci : ci < len) (h1 : 1 ≤ i) (hi : i < len) : TK.probeIdx ci inc len i ≠ ci := by
  intro he
  rw [TK.probeIdx] at he
  have hlen : (0 : Int) < (len : Int) := by exact_mod_cast Nat.lt_of_le_of_lt (Nat.zero_le ci) hci
  have hmodnn := Int.emod_nonneg ((ci : Int) + inc * (i : Int) + (len : Int)) (ne_of_gt hlen)
  have he2 : ((ci : Int) + inc * (i : Int) + (len : Int)) % (len : Int) = (ci : Int) := by omega
  rw [show (ci : Int) + inc * (i : Int) + (len : Int)
      = (ci : Int) + inc * (i : Int) + (len : Int) * 1 by ring,
    Int.add_mul_emod_self_left] at he2
  have hcimod : (ci : Int) % (len : Int) = (ci : Int) :=
    Int.emod_eq_of_lt (by exact_mod_cast Nat.zero_le ci) (by exact_mod_cast hci)
  have hsub := Int.emod_eq_emod_iff_emod_sub_eq_zero.mp (he2.trans hcimod.symm)
  rw [show (ci : Int) + inc * (i : Int) - (ci : Int) = inc * (i : Int) by ring] at hsub
  have hdvd : (len : Int) ∣ inc * (i : Int) := Int.dvd_of_emod_eq_zero hsub
  have hipos : (0 : Int) < (i : Int) := by exact_mod_cast h1
  rcases hinc with h | h
  · rw [h, one_mul] at hdvd
    have := Int.le_of_dvd hipos hdvd
    have : (len : Int) ≤ (i : Int) := this
    omega
  · rw [h] at hdvd
    have hdvd2 : (len : Int) ∣ (i : Int) := by
      rw [show (-1 : Int) * (i : Int) = -(i : Int) by ring] at hdvd
      exact (Int.dvd_neg).mp hdvd
    have := Int.le_of_dvd hipos hdvd2
    omega

/-- C3 counterexample: with eligible A active and the only other tab B
non-reorderable, switchTab(next) completes a full cycle without finding an
eligible candidate, yet it moves the active tab to the ineligible B instead
of leaving activeTabId unchanged. -/
theorem switchTab_no_eligible_moves_cex :
    TK.reorderableTruthy (getEntity switchCexState.entities "b") = false ∧
    (TK.switchTab switchCexState TK.Direction.next).activeTabId = some "b" := by
  refine ⟨by decide, by decide⟩

/-- C3 amended: when the active id sits at index ci of ids, switchTab probes
the other positions in step order (ci + direction * i mod length, for
i = 1 .. length - 1), skipping non-eligible candidates: the first eligible
candidate becomes active (so eligible [A,B,C] with A active cycles B, C, A);
but when no candidate is eligible, the reducer does not leave activeTabId
unchanged — for length at least 2 it activates the last probed (ineligible)
candidate, at index (ci - direction) mod length; only a single-tab store is
left unchanged. -/
theorem switchTab_step_amended (s : TK.TabState) (direction : TK.Direction) (a : String)
    (ci : Nat) (hact : s.activeTabId = some a) (hidx : s.ids.indexOf? a = some ci) :
    (∀ c, ((List.range' 1 (s.ids.length - 1)).map
        (TK.probeIdx ci (if direction = TK.Direction.next then 1 else -1) s.ids.length)).find?
        (fun n => TK.reorderableTruthy (getEntity s.entities (s.ids.getD n ""))) = some c →
      TK.switchTab s direction = { s with activeTabId := some (s.ids.getD c "") }) ∧
    (((List.range' 1 (s.ids.length - 1)).map
        (TK.probeIdx ci (if direction = TK.Direction.next then 1 else -1) s.ids.length)).find?
        (fun n => TK.reorderableTruthy (getEntity s.entities (s.ids.getD n ""))) = none →
      2 ≤ s.ids.length →
      TK.switchTab s direction = { s with activeTabId := some (s.ids.getD
        (TK.probeIdx ci (if direction = TK.Direction.next then 1 else -1) s.ids.length
          (s.ids.length - 1)) "") }) ∧
    (s.ids.length = 1 → TK.switchTab s direction = s) := by
  have hci : ci < s.ids.length := (indexOf?_some_spec hidx).1
  have hinc : (if direction = TK.Direction.next then (1 : Int) else -1) = 1 ∨
      (if direction = TK.Direction.next then (1 : Int) else -1) = -1 := by
    by_cases h : direction = TK.Direction.next
    · left; rw [if_pos h]
    · right; rw [if_neg h]
  have hbody : TK.switchTab s direction =
      (let newIndex := TK.switchGo s.entities s.ids ci
          (if direction = TK.Direction.next then 1 else -1) s.ids.length (s.ids.length - 1) 1 ci
       if newIndex ≠ ci then { s with activeTabId := some (s.ids.getD newIndex "") } else s) := by
    rw [TK.switchTab, hact]
    simp only [Option.getD_some, hidx]
  refine ⟨fun c hfind => ?_, fun hfind hlen2 => ?_, fun hlen1 => ?_⟩
  · have hc : TK.switchGo s.entities s.ids ci
        (if direction = TK.Direction.next then 1 else -1) s.ids.length (s.ids.length - 1) 1 ci
        = c := by
      rw [switchGo_spec, hfind, Option.getD_some]
    have hmem := List.mem_of_find?_eq_some hfind
    obtain ⟨j, hj, hfj⟩ := List.mem_map.mp hmem
    obtain ⟨hj1, hj2⟩ := List.mem_range'_1.mp hj
    have hne : c ≠ ci := by
      rw [← hfj]
      exact probeIdx_ne ci _ s.ids.length j hinc hci hj1 (by omega)
    rw [hbody]
    simp only [hc, if_pos hne]
  · have hlast : TK.switchGo s.entities s.ids ci
        (if direction = TK.Direction.next then 1 else -1) s.ids.length (s.ids.length - 1) 1 ci =
        TK.probeIdx ci (if direction = TK.Direction.next then 1 else -1) s.ids.length
          (s.ids.length - 1) := by
      rw [switchGo_spec, hfind, Option.getD_none]
      have hn : s.ids.length - 1 = (s.ids.length - 2) + 1 := by omega
      rw [hn, range'_map_getLastD]
      congr 1
      omega
    have hne : TK.probeIdx ci (if direction = TK.Direction.next then 1 else -1) s.ids.length
        (s.ids.length - 1) ≠ ci :=
      probeIdx_ne ci _ s.ids.length (s.ids.length - 1) hinc hci (by omega) (by omega)
    rw [hbody]
    simp only [hlast, if_pos hne]
  · have hempty : s.ids.length - 1 = 0 := by omega
    have hgo : TK.switchGo s.entities s.ids ci
        (if direction = TK.Direction.next then 1 else -1) s.ids.length (s.ids.length - 1) 1 ci
        = ci := by
      rw [hempty, TK.switchGo]
    rw [hbody]
    simp only [hgo]
    simp

/-- C3 witness: with eligible A, B, C (sorted ids a, b, c) and A active, the
first probe lands on index 1 (tab B), which is eligible and becomes active. -/
theorem switchTab_step_amended_witness :
    TK.switchTab switchCycleState TK.Direction.next =
      { switchCycleState with activeTabId := some (switchCycleState.ids.getD 1 "") } :=
  (switchTab_step_amended switchCycleState TK.Direction.next "a" 0 rfl (by decide)).1 1 (by decide)

/-! ### removeTab of the active tab (claim C4) -/

theorem scanFwd_map_getD (ent : List (String × TK.Tab)) (ids : List String) (start : Nat) :
    (TK.scanFwd ent ids start).map (fun n => ids.getD n "") =
      (ids.drop start).find? (fun i => TK.reorderableTruthy (getEntity ent i)) := by
  rw [TK.scanFwd]
  cases hfi : (ids.drop start).findIdx? (fun i => TK.reorderableTruthy (getEntity ent i)) with
  | none => exact (findIdx?_none_spec hfi).symm
  | some j =>
    obtain ⟨hlt, hfind⟩ := findIdx?_some_spec hfi
    rw [Option.map_some', hfind ""]
    rw [List.getD_eq_getElem?_getD, List.getD_eq_getElem?_getD, List.getElem?_drop]

theorem scanBwd_map_getD (ent : List (String × TK.Tab)) (ids : List String) :
    ∀ m, m < ids.length →
      (TK.scanBwd ent ids m).map (fun n => ids.getD n "") =
        (ids.take (m + 1)).reverse.find? (fun i => TK.reorderableTruthy (getEntity ent i))
  | 0, hm => by
    have h0 : ids[0]? = some (ids.getD 0 "") := by
      rw [List.getD_eq_getElem?_getD, List.getElem?_eq_getElem hm]
      rfl
    rw [TK.scanBwd, List.take_succ, List.take_zero, List.nil_append, h0,
      Option.toList_some, List.reverse_singleton]
    by_cases hp : TK.reorderableTruthy (getEntity ent (ids.getD 0 "")) = true
    · rw [if_pos hp, Option.map_some']
      exact (@List.find?_cons_of_pos String
        (fun i => TK.reorderableTruthy (getEntity ent i)) (ids.getD 0 "") [] hp).symm
    · rw [if_neg hp, Option.map_none',
        @List.find?_cons_of_neg String
          (fun i => TK.reorderableTruthy (getEntity ent i)) (ids.getD 0 "") [] hp]
      rfl
  | m + 1, hm => by
    have hsome : ids[m + 1]? = some (ids.getD (m + 1) "") := by
      rw [List.getD_eq_getElem?_getD, List.getElem?_eq_getElem hm]
      rfl
    have hsplit2 : (ids.take (m + 1 + 1)).reverse
        = ids.getD (m + 1) "" :: (ids.take (m + 1)).reverse := by
      rw [List.take_succ, hsome, List.reverse_append]
      rfl
    rw [TK.scanBwd, hsplit2]
    by_cases hp : TK.reorderableTruthy (getEntity ent (ids.getD (m + 1) "")) = true
    · rw [if_pos hp, Option.map_some']
      exact (@List.find?_cons_of_pos String
        (fun i => TK.reorderableTruthy (getEntity ent i)) (ids.getD (m + 1) "")
        ((ids.take (m + 1)).reverse) hp).symm
    · rw [if_neg hp,
        @List.find?_cons_of_neg String
          (fun i => TK.reorderableTruthy (getEntity ent i)) (ids.getD (m + 1) "")
          ((ids.take (m + 1)).reverse) hp]
      exact scanBwd_map_getD ent ids m (Nat.lt_of_succ_lt hm)

/-- C4: removing the active (closable) tab at position l1.length activates
the first tab with a truthy config.reorderable found scanning forward over
the ids after the removed position; when none qualifies, the first such tab
scanning backward over the ids before the removed position; and null when
both scans fail. -/
theorem removeTab_active_successor (s : TK.TabState) (tabId : String) (l1 l2 : List String)
    (hcl : TK.closableTruthy (getEntity s.entities tabId) = true)
    (hact : s.activeTabId = some tabId)
    (hsplit : s.ids = l1 ++ tabId :: l2)
    (h1 : tabId ∉ l1) (h2 : tabId ∉ l2) :
    (TK.removeTab s tabId).activeTabId =
      ((l2.find? (fun i => TK.reorderableTruthy (getEntity s.entities i))).orElse
        (fun _ => l1.reverse.find? (fun i => TK.reorderableTruthy (getEntity s.entities i)))) := by
  have hids : s.ids = (l1 ++ [tabId]) ++ l2 := by
    rw [hsplit, List.append_assoc, List.singleton_append]
  have hlen1 : (l1 ++ [tabId]).length = l1.length + 1 := by
    rw [List.length_append, List.length_singleton]
  have hdrop : s.ids.drop (l1.length + 1) = l2 := by
    rw [hids, ← hlen1, List.drop_left]
  have htake : s.ids.take l1.length = l1 := by
    rw [hsplit, List.take_append_of_le_length (Nat.le_refl _), List.take_length]
  have hidx : s.ids.indexOf? tabId = some l1.length := by
    rw [hsplit]
    exact indexOf?_append_first h1
  have hfneF : ∀ i ∈ l2, (TK.reorderableTruthy
      (getEntity (s.entities.filter (fun p => p.1 ≠ tabId)) i))
      = (TK.reorderableTruthy (getEntity s.entities i)) := by
    intro i hi
    rw [getEntity_filter_ne _ _ _ (fun he => h2 (by rw [← he]; exact hi))]
  have hfneB : ∀ i ∈ l1.reverse, (TK.reorderableTruthy
      (getEntity (s.entities.filter (fun p => p.1 ≠ tabId)) i))
      = (TK.reorderableTruthy (getEntity s.entities i)) := by
    intro i hi
    rw [getEntity_filter_ne _ _ _ (fun he => h1 (by rw [← he]; exact List.mem_reverse.mp hi))]
  rw [TK.removeTab, if_pos hcl, if_pos hact]
  show (match TK.scanFwd (s.entities.filter (fun p => p.1 ≠ tabId)) s.ids
        (match s.ids.indexOf? tabId with
         | some i => i + 1
         | none => 0) with
      | some i => some i
      | none =>
        match s.ids.indexOf? tabId with
        | some k => if k = 0 then none
            else TK.scanBwd (s.entities.filter (fun p => p.1 ≠ tabId)) s.ids (k - 1)
        | none => none).map (fun i => s.ids.getD i "") = _
  rw [hidx]
  have hfwd := scanFwd_map_getD (s.entities.filter (fun p => p.1 ≠ tabId)) s.ids (l1.length + 1)
  rw [hdrop, find?_congr_mem hfneF] at hfwd
  cases hF : TK.scanFwd (s.entities.filter (fun p => p.1 ≠ tabId)) s.ids (l1.length + 1) with
  | some j =>
    rw [hF, Option.map_some'] at hfwd
    rw [← hfwd]
    rfl
  | none =>
    rw [hF, Option.map_none'] at hfwd
    rw [hfwd.symm]
    show Option.map (fun i => s.ids.getD i "")
        (if l1.length = 0 then none
         else TK.scanBwd (s.entities.filter (fun p => p.1 ≠ tabId)) s.ids (l1.length - 1))
      = Option.orElse none (fun _ => l1.reverse.find?
          (fun i => TK.reorderableTruthy (getEntity s.entities i)))
    by_cases hz : l1.length = 0
    · rw [if_pos hz, Option.map_none', List.length_eq_zero.mp hz]
      rfl
    · rw [if_neg hz]
      have hm : l1.length - 1 < s.ids.length := by
        rw [hsplit, List.length_append, List.length_cons]
        omega
      have hbwd := scanBwd_map_getD (s.entities.filter (fun p => p.1 ≠ tabId)) s.ids
        (l1.length - 1) hm
      have hm1 : l1.length - 1 + 1 = l1.length := by omega
      rw [hm1, htake, find?_congr_mem hfneB] at hbwd
      rw [hbwd]
      rfl

/-- C4 witness: removing active B from [A, B, C] where only C is
reorderable activates C via the forward scan (A is skipped, and in the
all-ineligible variant the fallback yields null, covered by the
counterexample states). -/
theorem removeTab_active_successor_witness :
    (TK.removeTab removeScanState "b").activeTabId =
      (((["c"] : List String).find?
          (fun i => TK.reorderableTruthy (getEntity removeScanState.entities i))).orElse
        (fun _ => (["a"] : List String).reverse.find?
          (fun i => TK.reorderableTruthy (getEntity removeScanState.entities i)))) :=
  removeTab_active_successor removeScanState "b" ["a"] ["c"]
    (by decide) rfl rfl (by decide) (by decide)

/-! ### removeTab of an inactive tab (claim C10) -/

/-- C10: removing a closable tab that is not the active one removes exactly
that tab — activeTabId is unchanged, the remaining ids keep their relative
order, the removed id maps to nothing, and every other entity is unchanged. -/
theorem removeTab_inactive_frame (s : TK.TabState) (tabId : String)
    (hcl : TK.closableTruthy (getEntity s.entities tabId) = true)
    (hact : s.activeTabId ≠ some tabId)
    (hwf : ∀ i ∈ s.ids, i ≠ tabId → (getEntity s.entities i).isSome) :
    (TK.removeTab s tabId).activeTabId = s.activeTabId ∧
    (TK.removeTab s tabId).ids = s.ids.filter (fun i => i ≠ tabId) ∧
    getEntity (TK.removeTab s tabId).entities tabId = none ∧
    (∀ i, i ≠ tabId → getEntity (TK.removeTab s tabId).entities i = getEntity s.entities i) := by
  rw [TK.removeTab, if_pos hcl, if_neg hact]
  refine ⟨rfl, ?_, getEntity_filter_ne_self s.entities tabId, fun i hi =>
    getEntity_filter_ne s.entities tabId i hi⟩
  show s.ids.filter _ = s.ids.filter _
  apply List.filter_congr
  intro i hmem
  by_cases hi : i = tabId
  · subst hi
    rw [getEntity_filter_ne_self]
    simp
  · rw [getEntity_filter_ne s.entities tabId i hi]
    simp only [Option.isSome]
    cases hsome : getEntity s.entities i with
    | none => exact absurd (hwf i hmem hi) (by rw [hsome]; simp)
    | some t => simp [hi]

/-- C10 witness: removing inactive b from the two-tab store keeps a active
and only drops b. -/
theorem removeTab_inactive_frame_witness :
    (TK.removeTab twoTabState "b").activeTabId = twoTabState.activeTabId ∧
    (TK.removeTab twoTabState "b").ids = twoTabState.ids.filter (fun i => i ≠ "b") ∧
    getEntity (TK.removeTab twoTabState "b").entities "b" = none ∧
    (∀ i, i ≠ "b" → getEntity (TK.removeTab twoTabState "b").entities i
      = getEntity twoTabState.entities i) :=
  removeTab_inactive_frame twoTabState "b" (by decide) (by decide)
    (by
      intro i hmem hne
      fin_cases hmem
      · rfl
      · exact absurd rfl hne)

/-! ### part_005 moveTab (claim C8) -/

theorem validate_ok_lookup (s : P5.TabState) (tabId : String)
    (hv : P5.validateTabEntity s tabId = Except.ok ()) :
    (getEntity s.entities tabId).isSome := by
  cases hl : getEntity s.entities tabId with
  | none => rw [P5.validateTabEntity, hl] at hv; cases hv
  | some tab => rfl

theorem moveTabList_perm (tabs : List P5.Tab) (tabId : String) (n : Int) :
    (P5.moveTabList tabs tabId n).Perm tabs := by
  simp only [P5.moveTabList]
  cases hfi : tabs.findIdx? (fun t => t.id == tabId) with
  | none => exact List.Perm.refl tabs
  | some oldIndex =>
    dsimp only
    cases hget : tabs[oldIndex]? with
    | none => exact List.Perm.refl tabs
    | some moved =>
      dsimp only
      have hstart : (if n < 0 then ((((tabs.eraseIdx oldIndex).length : Int) + n).toNat)
          else min n.toNat (tabs.eraseIdx oldIndex).length) ≤ (tabs.eraseIdx oldIndex).length := by
        by_cases hn : n < 0
        · rw [if_pos hn]; omega
        · rw [if_neg hn]; exact min_le_right _ _
      exact (insertIdx_perm moved _ (tabs.eraseIdx oldIndex) hstart).trans
        (eraseIdx_cons_perm tabs oldIndex moved hget)

theorem entityValues_map_id (l : List (String × P5.Tab)) (hcons : ∀ p ∈ l, p.2.id = p.1) :
    (l.map Prod.snd).map P5.Tab.id = entityKeys l := by
  rw [List.map_map, entityKeys]
  exact List.map_congr_left hcons

theorem entityValues_pair_id (l : List (String × P5.Tab)) (hcons : ∀ p ∈ l, p.2.id = p.1) :
    (l.map Prod.snd).map (fun t => (t.id, t)) = l := by
  rw [List.map_map]
  have : ∀ p ∈ l, ((fun t => (t.id, t)) ∘ Prod.snd) p = id p := by
    intro p hp
    show (p.2.id, p.2) = p
    rw [hcons p hp]
  rw [List.map_congr_left this, List.map_id]

/-- C8: a validated moveTab only permutes: the new ids are a permutation of
the old ids, every entity record resolves exactly as before, and the active
id is unchanged. (The sorted adapter setAll even re-sorts the spliced list by
title, but that is still a permutation.) -/
theorem moveTab_is_permutation (s : P5.TabState) (tabId : String) (n : Int)
    (hv : P5.validateTabEntity s tabId = Except.ok ())
    (hnd : (entityKeys s.entities).Nodup)
    (hperm : s.ids.Perm (entityKeys s.entities))
    (hcons : ∀ p ∈ s.entities, p.2.id = p.1) :
    ∃ s1, P5.moveTab s tabId n = Except.ok s1 ∧
      s1.ids.Perm s.ids ∧
      (∀ k, getEntity s1.entities k = getEntity s.entities k) ∧
      s1.activeTabId = s.activeTabId := by
  simp only [P5.moveTab, hv]
  refine ⟨_, rfl, ?_, ?_, rfl⟩
  · have hsort : (List.insertionSort P5.tabTitleLe
        (P5.moveTabList (s.entities.map Prod.snd) tabId n)).Perm (s.entities.map Prod.snd) :=
      (List.perm_insertionSort _ _).trans (moveTabList_perm _ tabId n)
    have hmap := hsort.map P5.Tab.id
    rw [entityValues_map_id s.entities hcons] at hmap
    exact hmap.trans hperm.symm
  · intro k
    have hsort : (List.insertionSort P5.tabTitleLe
        (P5.moveTabList (s.entities.map Prod.snd) tabId n)).Perm (s.entities.map Prod.snd) :=
      (List.perm_insertionSort _ _).trans (moveTabList_perm _ tabId n)
    have hpair := hsort.map (fun t => (t.id, t))
    rw [entityValues_pair_id s.entities hcons] at hpair
    have hkeys : (entityKeys (List.map (fun t => (t.id, t))
        (List.insertionSort P5.tabTitleLe
          (P5.moveTabList (s.entities.map Prod.snd) tabId n)))).Nodup :=
      ((hpair.map Prod.fst).nodup_iff).mpr hnd
    exact getEntity_perm hpair hkeys k

/-- C8 witness: moving tab a to index 2 among three tabs keeps the id
multiset, every record, and the active id. -/
theorem moveTab_is_permutation_witness :
    ∃ s1, P5.moveTab p5MoveState "a" 2 = Except.ok s1 ∧
      s1.ids.Perm p5MoveState.ids ∧
      (∀ k, getEntity s1.entities k = getEntity p5MoveState.entities k) ∧
      s1.activeTabId = p5MoveState.activeTabId :=
  moveTab_is_permutation p5MoveState "a" 2 rfl (by decide) (by decide) (by decide)

/-! ### part_005 state invariants (claim C2) -/

theorem settle_ok (x : P5.TabState) (s : P5.TabState) :
    P5.settle (Except.ok x) s = x := rfl

theorem settle_error (e : String) (s : P5.TabState) :
    P5.settle (Except.error e) s = s := rfl

theorem wf_initial : WellFormedP5 P5.initialState := by
  refine ⟨List.nodup_nil, List.Perm.refl _, ?_, ?_⟩
  · intro p hp; cases hp
  · intro a ha; cases ha

theorem wf_addTab (s : P5.TabState) (pl : P5.AddTabPayload) (newId : String)
    (h : WellFormedP5 s) : WellFormedP5 (P5.addTab s pl newId) := by
  obtain ⟨hnd, hperm, hcons, hact⟩ := h
  by_cases hc : (getEntity s.entities newId).isSome
  · simp only [P5.addTab, if_pos hc]
    refine ⟨hnd, hperm, hcons, ?_⟩
    intro a ha
    rw [Option.some_inj] at ha
    rw [← ha]
    exact hc
  · simp only [P5.addTab, if_neg hc]
    have hnewmem : newId ∉ entityKeys s.entities := by
      rw [← getEntity_isSome_iff_mem]
      exact hc
    have hconsNew : ∀ p ∈ s.entities ++ [(newId,
        ({ id := newId, title := pl.title, content := pl.content, isDirty := pl.isDirty,
           config := some
             { persist := some ((pl.config.bind P5.TabConfig.persist).getD false),
               closable := some ((pl.config.bind P5.TabConfig.closable).getD true),
               reorderable := some ((pl.config.bind P5.TabConfig.reorderable).getD true) } }
          : P5.Tab))], p.2.id = p.1 := by
      intro p hp
      cases List.mem_append.mp hp with
      | inl hold => exact hcons p hold
      | inr hnew =>
        cases hnew with
        | head => rfl
        | tail _ hx => cases hx
    have hkeysApp : entityKeys (s.entities ++ [(newId,
        ({ id := newId, title := pl.title, content := pl.content, isDirty := pl.isDirty,
           config := some
             { persist := some ((pl.config.bind P5.TabConfig.persist).getD false),
               closable := some ((pl.config.bind P5.TabConfig.closable).getD true),
               reorderable := some ((pl.config.bind P5.TabConfig.reorderable).getD true) } }
          : P5.Tab))]) = entityKeys s.entities ++ [newId] := by
      rw [entityKeys, List.map_append]
      rfl
    refine ⟨?_, ?_, hconsNew, ?_⟩
    · rw [hkeysApp]
      rw [List.nodup_append]
      exact ⟨hnd, List.nodup_singleton newId, by
        intro x hx hx1
        rw [List.mem_singleton] at hx1
        exact hnewmem (hx1 ▸ hx)⟩
    · have hsort := List.perm_insertionSort P5.tabTitleLe
        ((s.entities ++ [(newId,
          ({ id := newId, title := pl.title, content := pl.content, isDirty := pl.isDirty,
             config := some
               { persist := some ((pl.config.bind P5.TabConfig.persist).getD false),
                 closable := some ((pl.config.bind P5.TabConfig.closable).getD true),
                 reorderable := some ((pl.config.bind P5.TabConfig.reorderable).getD true) } }
            : P5.Tab))]).map Prod.snd)
      have hmap := hsort.map P5.Tab.id
      rw [entityValues_map_id _ hconsNew] at hmap
      exact hmap
    · intro a ha
      rw [Option.some_inj] at ha
      rw [← ha, getEntity_append]
      have hnone : getEntity s.entities newId = none := by
        cases hg : getEntity s.entities newId with
        | none => rfl
        | some t => rw [hg] at hc; exact absurd rfl hc
      rw [hnone]
      simp [Option.orElse, getEntity]

theorem wf_setActiveTab (s : P5.TabState) (tabId : String) (h : WellFormedP5 s) :
    WellFormedP5 (P5.settle (P5.setActiveTab s tabId) s) := by
  cases hv : P5.validateTabEntity s tabId with
  | error e =>
    simp only [P5.setActiveTab, hv, P5.settle]
    exact h
  | ok u =>
    cases u
    simp only [P5.setActiveTab, hv, P5.settle]
    obtain ⟨hnd, hperm, hcons, hact⟩ := h
    refine ⟨hnd, hperm, hcons, ?_⟩
    intro a ha
    rw [Option.some_inj] at ha
    rw [← ha]
    exact validate_ok_lookup s tabId hv

theorem wf_removeTab (s : P5.TabState) (tabId : String) (h : WellFormedP5 s) :
    WellFormedP5 (P5.settle (P5.removeTab s tabId) s) := by
  cases hv : P5.validateTabEntity s tabId with
  | error e =>
    simp only [P5.removeTab, hv, P5.settle]
    exact h
  | ok u =>
    cases u
    simp only [P5.removeTab, hv, P5.settle]
    obtain ⟨hnd, hperm, hcons, hact⟩ := h
    have hkeys : entityKeys (s.entities.filter (fun p => p.1 ≠ tabId))
        = (entityKeys s.entities).filter (fun x => x ≠ tabId) := entityKeys_filter_ne _ _
    refine ⟨?_, ?_, ?_, ?_⟩
    · rw [hkeys]
      exact hnd.filter _
    · have hq : ∀ x ∈ entityKeys s.entities,
          ((getEntity (s.entities.filter (fun p => p.1 ≠ tabId)) x).isSome : Bool)
            = (decide (x ≠ tabId)) := by
        intro x hx
        by_cases hxt : x = tabId
        · subst hxt
          rw [getEntity_filter_ne_self]
          simp
        · rw [getEntity_filter_ne _ _ _ hxt]
          have hs : (getEntity s.entities x).isSome := (getEntity_isSome_iff_mem _ _).mpr hx
          rw [hs]
          simp [hxt]
      have hpf := hperm.filter
        (fun i => (getEntity (s.entities.filter (fun p => p.1 ≠ tabId)) i).isSome)
      rw [List.filter_congr hq] at hpf
      rw [hkeys]
      exact hpf
    · intro p hp
      exact hcons p (List.mem_of_mem_filter hp)
    · intro a ha
      have ha2 : (s.ids.filter (fun i =>
          (getEntity (s.entities.filter (fun p => p.1 ≠ tabId)) i).isSome)).head? = some a := ha
      have hmem : a ∈ s.ids.filter
          (fun i => (getEntity (s.entities.filter (fun p => p.1 ≠ tabId)) i).isSome) :=
        List.mem_of_mem_head? (by rw [Option.mem_def]; exact ha2)
      have hq := List.of_mem_filter hmem
      exact hq

theorem switchSearch_lt (ent : List (String × P5.Tab)) (ids : List String)
    (inc : Int) (len : Nat) (hlen : 0 < len) :
    ∀ (fuel st : Nat), st < len → ∀ r, P5.switchSearch ent ids inc len fuel st = some r →
      r < len := by
  have hmodlt : ∀ x : Int, (x % (len : Int)).toNat < len := by
    intro x
    have h1 := Int.emod_nonneg x (show ((len : Nat) : Int) ≠ 0 by exact_mod_cast Nat.pos_iff_ne_zero.mp hlen)
    have h2 := Int.emod_lt_of_pos x (show (0 : Int) < ((len : Nat) : Int) by exact_mod_cast hlen)
    omega
  intro fuel
  induction fuel with
  | zero =>
    intro st hst r hr
    rw [P5.switchSearch] at hr
    by_cases hs : P5.stuckOnIndex ent ids st = true
    · rw [if_pos hs] at hr
      cases hr
    · rw [if_neg hs] at hr
      rw [Option.some_inj] at hr
      rw [← hr]
      exact hst
  | succ n ih =>
    intro st hst r hr
    rw [P5.switchSearch] at hr
    by_cases hs : P5.stuckOnIndex ent ids st = true
    · rw [if_pos hs] at hr
      exact ih _ (hmodlt _) r hr
    · rw [if_neg hs] at hr
      rw [Option.some_inj] at hr
      rw [← hr]
      exact hst

theorem wf_switchTab (s : P5.TabState) (next : Bool) (s1 : P5.TabState)
    (h : WellFormedP5 s) (happ : P5.switchTab s next = some s1) : WellFormedP5 s1 := by
  rw [P5.switchTab, P5.switchTabFuel] at happ
  cases hidx : s.ids.indexOf? (s.activeTabId.getD "") with
  | none =>
    rw [hidx] at happ
    dsimp only at happ
    rw [Option.some_inj] at happ
    rw [← happ]
    exact h
  | some ci =>
    rw [hidx] at happ
    dsimp only at happ
    have hci : ci < s.ids.length := (indexOf?_some_spec hidx).1
    have hlen : 0 < s.ids.length := Nat.lt_of_le_of_lt (Nat.zero_le ci) hci
    obtain ⟨hnd, hperm, hcons, hact⟩ := h
    cases hse : P5.switchSearch s.entities s.ids (if next = true then 1 else -1) s.ids.length
        s.ids.length ((((ci : Nat) : Int) + (if next = true then 1 else -1)
          + ((s.ids.length : Nat) : Int)) % ((s.ids.length : Nat) : Int)).toNat with
    | none =>
      rw [hse] at happ
      cases happ
    | some ni =>
      rw [hse] at happ
      rw [Option.some_inj] at happ
      have hni : ni < s.ids.length := by
        refine switchSearch_lt s.entities s.ids _ _ hlen _ _ ?_ ni hse
        have h1 := Int.emod_nonneg ((((ci : Nat) : Int) + (if next = true then 1 else -1)
            + ((s.ids.length : Nat) : Int))) (show ((s.ids.length : Nat) : Int) ≠ 0 by
          exact_mod_cast Nat.pos_iff_ne_zero.mp hlen)
        have h2 := Int.emod_lt_of_pos ((((ci : Nat) : Int) + (if next = true then 1 else -1)
            + ((s.ids.length : Nat) : Int))) (show (0 : Int) < ((s.ids.length : Nat) : Int) by
          exact_mod_cast hlen)
        omega
      rw [← happ]
      refine ⟨hnd, hperm, hcons, ?_⟩
      intro a ha
      rw [Option.some_inj] at ha
      rw [← ha]
      have hgd : s.ids.getD ni "" ∈ s.ids := by
        rw [List.getD_eq_getElem?_getD, List.getElem?_eq_getElem hni]
        exact List.getElem_mem hni
      rw [getEntity_isSome_iff_mem]
      exact (hperm.mem_iff).mp hgd

theorem wf_updateTab (s : P5.TabState) (pl : P5.UpdateTabPayload) (h : WellFormedP5 s) :
    WellFormedP5 (P5.settle (P5.updateTab s pl) s) := by
  cases hv : P5.validateTabEntity s pl.id with
  | error e =>
    simp only [P5.updateTab, hv, P5.settle]
    exact h
  | ok u =>
    cases u
    simp only [P5.updateTab, hv, P5.settle]
    obtain ⟨hnd, hperm, hcons, hact⟩ := h
    refine ⟨?_, ?_, ?_, ?_⟩
    · have heq := entityKeys_mapAt s.entities pl.id (fun t =>
        { t with title := pl.title.getD t.title, content := pl.content <|> t.content,
                 isDirty := pl.isDirty <|> t.isDirty, config := pl.config <|> t.config })
      exact heq ▸ hnd
    · have heq := entityKeys_mapAt s.entities pl.id (fun t =>
        { t with title := pl.title.getD t.title, content := pl.content <|> t.content,
                 isDirty := pl.isDirty <|> t.isDirty, config := pl.config <|> t.config })
      exact heq ▸ hperm
    · intro p hp
      obtain ⟨q, hq, hqe⟩ := List.mem_map.mp hp
      by_cases hqi : q.1 = pl.id
      · rw [if_pos hqi] at hqe
        rw [← hqe]
        exact hcons q hq
      · rw [if_neg hqi] at hqe
        rw [← hqe]
        exact hcons q hq
    · intro a ha
      by_cases hai : a = pl.id
      · rw [hai]
        have heq := getEntity_mapAt s.entities pl.id (fun t =>
          { t with title := pl.title.getD t.title, content := pl.content <|> t.content,
                   isDirty := pl.isDirty <|> t.isDirty, config := pl.config <|> t.config })
        rw [heq]
        have hs := hai ▸ hact a ha
        cases hg : getEntity s.entities pl.id with
        | none => rw [hg] at hs; simp at hs
        | some t => rfl
      · have heq := getEntity_mapAt_ne s.entities pl.id a (fun t =>
          { t with title := pl.title.getD t.title, content := pl.content <|> t.content,
                   isDirty := pl.isDirty <|> t.isDirty, config := pl.config <|> t.config }) hai
        rw [heq]
        exact hact a ha

theorem wf_moveTab (s : P5.TabState) (tabId : String) (n : Int) (h : WellFormedP5 s) :
    WellFormedP5 (P5.settle (P5.moveTab s tabId n) s) := by
  cases hv : P5.validateTabEntity s tabId with
  | error e =>
    simp only [P5.moveTab, hv, P5.settle]
    exact h
  | ok u =>
    cases u
    simp only [P5.moveTab, hv, P5.settle]
    obtain ⟨hnd, hperm, hcons, hact⟩ := h
    have hsort : (List.insertionSort P5.tabTitleLe
        (P5.moveTabList (s.entities.map Prod.snd) tabId n)).Perm (s.entities.map Prod.snd) :=
      (List.perm_insertionSort _ _).trans (moveTabList_perm _ tabId n)
    have hpair := hsort.map (fun t => (t.id, t))
    rw [entityValues_pair_id s.entities hcons] at hpair
    have hkeysEq : entityKeys ((List.insertionSort P5.tabTitleLe
        (P5.moveTabList (s.entities.map Prod.snd) tabId n)).map (fun t => (t.id, t)))
        = (List.insertionSort P5.tabTitleLe
            (P5.moveTabList (s.entities.map Prod.snd) tabId n)).map P5.Tab.id := by
      rw [entityKeys, List.map_map]
      rfl
    have hkeysNodup : (entityKeys ((List.insertionSort P5.tabTitleLe
        (P5.moveTabList (s.entities.map Prod.snd) tabId n)).map (fun t => (t.id, t)))).Nodup :=
      ((hpair.map Prod.fst).nodup_iff).mpr hnd
    refine ⟨hkeysNodup, ?_, ?_, ?_⟩
    · rw [hkeysEq]
    · intro p hp
      obtain ⟨t, ht, hte⟩ := List.mem_map.mp hp
      rw [← hte]
    · intro a ha
      rw [getEntity_perm hpair hkeysNodup a]
      exact hact a ha

theorem wf_applyOp (s : P5.TabState) (op : P5.Op) (s1 : P5.TabState)
    (h : WellFormedP5 s) (happ : P5.applyOp s op = some s1) : WellFormedP5 s1 := by
  cases op with
  | addTab newId pl =>
    rw [P5.applyOp, Option.some_inj] at happ
    rw [← happ]
    exact wf_addTab s pl newId h
  | setActiveTab tabId =>
    rw [P5.applyOp, Option.some_inj] at happ
    rw [← happ]
    exact wf_setActiveTab s tabId h
  | removeTab tabId =>
    rw [P5.applyOp, Option.some_inj] at happ
    rw [← happ]
    exact wf_removeTab s tabId h
  | switchTab next =>
    rw [P5.applyOp] at happ
    exact wf_switchTab s next s1 h happ
  | closeAllTabs =>
    rw [P5.applyOp, Option.some_inj] at happ
    rw [← happ]
    exact wf_initial
  | updateTab pl =>
    rw [P5.applyOp, Option.some_inj] at happ
    rw [← happ]
    exact wf_updateTab s pl h
  | moveTab tabId n =>
    rw [P5.applyOp, Option.some_inj] at happ
    rw [← happ]
    exact wf_moveTab s tabId n h

theorem wf_run : ∀ (ops : List P5.Op) (s s1 : P5.TabState),
    WellFormedP5 s → P5.run s ops = some s1 → WellFormedP5 s1
  | [], s, s1, h, hr => by
    rw [P5.run, Option.some_inj] at hr
    rw [← hr]
    exact h
  | op :: rest, s, s1, h, hr => by
    rw [P5.run] at hr
    cases happ : P5.applyOp s op with
    | none => rw [happ] at hr; cases hr
    | some s2 =>
      rw [happ] at hr
      exact wf_run rest s2 s1 (wf_applyOp s op s2 h happ) hr

/-- C2: after every finite sequence of the exposed operations that runs to
completion from the empty state, ids has exactly one entry per entity record,
ids contains no duplicate, and activeTabId is null or resolves to an entity. -/
theorem ops_preserve_invariants (ops : List P5.Op) (s1 : P5.TabState)
    (h : P5.run P5.initialState ops = some s1) :
    s1.ids.length = s1.entities.length ∧ s1.ids.Nodup ∧
    (∀ a, s1.activeTabId = some a → (getEntity s1.entities a).isSome) := by
  obtain ⟨hnd, hperm, _, hact⟩ := wf_run ops P5.initialState s1 wf_initial h
  refine ⟨?_, ?_, hact⟩
  · rw [hperm.length_eq, entityKeys, List.length_map]
  · exact hperm.symm.nodup hnd

/-- C2 witness: running all seven operations in sequence completes and the
final state (emptied by the trailing closeAllTabs) satisfies the invariants. -/
theorem ops_preserve_invariants_witness :
    P5.initialState.ids.length = P5.initialState.entities.length ∧
    P5.initialState.ids.Nodup ∧
    (∀ a, P5.initialState.activeTabId = some a →
      (getEntity P5.initialState.entities a).isSome) :=
  ops_preserve_invariants sampleOps P5.initialState (by decide)

end TabKit
